import Mathlib

/-!
Verification development for the KushRouter SDK client (src/index.ts).

This file gives a shallow embedding of the request-execution engine of the
SDK: the retry loop with error classification in KushRouterSDK.makeRequest,
the SSE stream decoder in KushRouterSDK.streamUnified, the header
construction of makeRequest and files.upload, and the camelCase to
snake_case request normalizers.  All definitions are translated from the
TypeScript source; strings are modelled as their character lists (every
input appearing in the theorems is ASCII, so a byte offset into the wire
data coincides with a character offset, and the incremental TextDecoder of
the source is the identity on chunk boundaries).
-/

/-! ## JSON values and a model of the host JSON.parse

The stream decoder calls the JavaScript builtin JSON.parse on each SSE
payload.  JSON.parse is host functionality, not repository code, so it is
modelled here by a fuel-bounded recursive-descent parser for the JSON
grammar (RFC 8259): literals, numbers, strings with the standard escapes,
arrays and objects, rejecting trailing input.  Numbers are kept as their
lexeme so that no floating-point semantics is needed; string escapes are
decoded, a backslash-u escape becoming the character with that code
point. -/

inductive Json where
  | null
  | bool (b : Bool)
  | num (lexeme : List Char)
  | str (s : List Char)
  | arr (items : List Json)
  | obj (members : List (List Char × Json))

/-- JSON insignificant whitespace (RFC 8259 section 2). -/
def isJsonWs (c : Char) : Bool :=
  c = ' ' || c = '\t' || c = '\n' || c = '\r'

def isDigitCh (c : Char) : Bool :=
  '0' ≤ c && c ≤ '9'

/-- Value of one hexadecimal digit, by code point: 48-57 are the
decimal digits, 97-102 the lowercase and 65-70 the uppercase letters. -/
def hexVal (c : Char) : Option Nat :=
  let n := c.toNat
  if 48 ≤ n ∧ n ≤ 57 then some (n - 48)
  else if 97 ≤ n ∧ n ≤ 102 then some (n - 87)
  else if 65 ≤ n ∧ n ≤ 70 then some (n - 55)
  else none

/-- Parse the remainder of a JSON string after the opening quote, decoding
escapes; returns the decoded content and the input after the closing
quote.  Unescaped control characters and invalid escapes are rejected,
as JSON.parse rejects them. -/
def parseStringRest : List Char → Option (List Char × List Char)
  | [] => none
  | '"' :: r => some ([], r)
  | '\\' :: r =>
    match r with
    | [] => none
    | 'u' :: h1 :: h2 :: h3 :: h4 :: r2 =>
      match hexVal h1, hexVal h2, hexVal h3, hexVal h4 with
      | some a, some b, some c, some d =>
        match parseStringRest r2 with
        | some (s, rest) =>
          some (Char.ofNat (a * 4096 + b * 256 + c * 16 + d) :: s, rest)
        | none => none
      | _, _, _, _ => none
    | e :: r2 =>
      let esc : Option Char :=
        if e = '"' then some '"'
        else if e = '\\' then some '\\'
        else if e = '/' then some '/'
        else if e = 'b' then some (Char.ofNat 8)
        else if e = 'f' then some (Char.ofNat 12)
        else if e = 'n' then some '\n'
        else if e = 'r' then some '\r'
        else if e = 't' then some '\t'
        else none
      match esc with
      | some c =>
        match parseStringRest r2 with
        | some (s, rest) => some (c :: s, rest)
        | none => none
      | none => none
  | c :: r =>
    if c.toNat < 32 then none
    else
      match parseStringRest r with
      | some (s, rest) => some (c :: s, rest)
      | none => none

/-- Exponent part of a JSON number literal (may be empty). -/
def numExpPart (acc : List Char) (s : List Char) : Option (List Char × List Char) :=
  match s with
  | e :: r =>
    if e = 'e' || e = 'E' then
      let (sgn, r1) :=
        match r with
        | '+' :: r2 => (['+'], r2)
        | '-' :: r2 => (['-'], r2)
        | _ => ([], r)
      let ds := r1.takeWhile isDigitCh
      if ds.isEmpty then none
      else some (acc ++ e :: sgn ++ ds, r1.dropWhile isDigitCh)
    else some (acc, s)
  | [] => some (acc, s)

/-- Fraction and exponent parts of a JSON number literal after the
integer part. -/
def numFracPart (acc : List Char) (s : List Char) : Option (List Char × List Char) :=
  match s with
  | '.' :: r =>
    let ds := r.takeWhile isDigitCh
    if ds.isEmpty then none
    else numExpPart (acc ++ '.' :: ds) (r.dropWhile isDigitCh)
  | _ => numExpPart acc s

/-- Lex a JSON number literal, returning its lexeme and the rest. -/
def parseNum (s : List Char) : Option (List Char × List Char) :=
  let (sgn, s1) :=
    match s with
    | '-' :: r => (['-'], r)
    | _ => ([], s)
  match s1 with
  | '0' :: r => numFracPart (sgn ++ ['0']) r
  | c :: r =>
    if isDigitCh c then
      numFracPart (sgn ++ c :: r.takeWhile isDigitCh) (r.dropWhile isDigitCh)
    else none
  | [] => none

/-- Parser mode: a whole value, the items of an array after the opening
bracket, or the members of an object after the opening brace.  The flag
says whether the next element may be absent (a closing bracket directly
after the opening one). -/
inductive PMode where
  | value
  | items (first : Bool)
  | members (first : Bool)

/-- Intermediate parse result for each mode. -/
inductive POut where
  | val (j : Json)
  | list (js : List Json)
  | mems (ms : List (List Char × Json))

/-- One fuel-bounded step of the recursive-descent JSON parser. -/
def parseStep : Nat → PMode → List Char → Option (POut × List Char)
  | 0, _, _ => none
  | fuel + 1, .value, s =>
    match s.dropWhile isJsonWs with
    | [] => none
    | c :: r =>
      if c = '{' then
        match parseStep fuel (.members true) r with
        | some (.mems ms, rest) => some (.val (.obj ms), rest)
        | _ => none
      else if c = '[' then
        match parseStep fuel (.items true) r with
        | some (.list js, rest) => some (.val (.arr js), rest)
        | _ => none
      else if c = '"' then
        match parseStringRest r with
        | some (content, rest) => some (.val (.str content), rest)
        | none => none
      else if c = 'n' then
        if "ull".data.isPrefixOf r then some (.val .null, r.drop 3) else none
      else if c = 't' then
        if "rue".data.isPrefixOf r then some (.val (.bool true), r.drop 3) else none
      else if c = 'f' then
        if "alse".data.isPrefixOf r then some (.val (.bool false), r.drop 4) else none
      else if c = '-' || isDigitCh c then
        match parseNum (c :: r) with
        | some (lexeme, rest) => some (.val (.num lexeme), rest)
        | none => none
      else none
  | fuel + 1, .items first, s =>
    let s1 := s.dropWhile isJsonWs
    match s1 with
    | ']' :: rest => if first then some (.list [], rest) else none
    | _ =>
      match parseStep fuel .value s1 with
      | some (.val j, rest) =>
        match rest.dropWhile isJsonWs with
        | ']' :: rest2 => some (.list [j], rest2)
        | ',' :: rest2 =>
          match parseStep fuel (.items false) rest2 with
          | some (.list js, rest3) => some (.list (j :: js), rest3)
          | _ => none
        | _ => none
      | _ => none
  | fuel + 1, .members first, s =>
    let s1 := s.dropWhile isJsonWs
    match s1 with
    | '}' :: rest => if first then some (.mems [], rest) else none
    | '"' :: r =>
      match parseStringRest r with
      | some (key, r1) =>
        match r1.dropWhile isJsonWs with
        | ':' :: r2 =>
          match parseStep fuel .value r2 with
          | some (.val v, rest) =>
            match rest.dropWhile isJsonWs with
            | '}' :: rest2 => some (.mems [(key, v)], rest2)
            | ',' :: rest2 =>
              match parseStep fuel (.members false) rest2 with
              | some (.mems ms, rest3) => some (.mems ((key, v) :: ms), rest3)
              | _ => none
            | _ => none
          | _ => none
        | _ => none
      | none => none
    | _ => none

/-- Model of the host JSON.parse: parse one JSON value and reject any
trailing non-whitespace input.  The fuel is a generous bound on the
recursion depth; running out of fuel yields a parse failure. -/
def jsonParse (s : List Char) : Option Json :=
  match parseStep (2 * s.length + 2) .value s with
  | some (.val j, rest) => if (rest.dropWhile isJsonWs).isEmpty then some j else none
  | _ => none

/-! ## The SSE stream decoder (KushRouterSDK.streamUnified, src/index.ts:490-519)

The source reads byte chunks, accumulates them in a string buffer, splits
the buffer on the newline character keeping the last piece as the new
buffer, and processes each complete line: lines not starting with the
prefix sequence d, a, t, a, colon, space are skipped; otherwise the
payload after that 6-character prefix is trimmed, the literal sentinel
[DONE] terminates the generator, and any other payload is passed to
JSON.parse, a successful parse being yielded and a failure being
silently skipped.  When the reader reports done the loop breaks,
discarding whatever is left in the buffer.  The decoder has no error
outcome of its own: the result of a decode is the list of yielded frames
together with a flag recording whether the generator returned via the
[DONE] sentinel (true) or via source exhaustion (false). -/

/-- The whitespace trimmed by the JavaScript trim method (restricted to
the characters that can appear here; lines contain no newline by
construction). -/
def isJsWs (c : Char) : Bool :=
  c = ' ' || c = '\t' || c = '\n' || c = '\r' ||
  c = Char.ofNat 11 || c = Char.ofNat 12 || c = Char.ofNat 160 || c = Char.ofNat 65279

/-- Model of the JavaScript trim method on strings. -/
def jsTrim (s : List Char) : List Char :=
  ((s.dropWhile isJsWs).reverse.dropWhile isJsWs).reverse

/-- Model of the buffer split of the source: split the buffer on the
newline character, then pop the last piece back into the buffer.
Returns the complete lines (all split pieces but the last) and the new
buffer (the last piece). -/
def splitLines : List Char → List (List Char) × List Char
  | [] => ([], [])
  | c :: cs =>
    let p := splitLines cs
    if c = '\n' then ([] :: p.1, p.2)
    else
      match p.1 with
      | [] => ([], c :: p.2)
      | l :: ls => ((c :: l) :: ls, p.2)

/-- What the loop body of streamUnified does with one complete line. -/
inductive LineRes where
  | done
  | skip
  | yield (j : Json)

/-- Processing of one complete line by the decoder loop, translated from
the body of the for loop of streamUnified: lines without the data prefix
are skipped; the payload is the line after the 6-character prefix,
trimmed; the sentinel [DONE] returns from the generator; a payload that
JSON.parse accepts is yielded and any other payload is skipped. -/
def lineResult (line : List Char) : LineRes :=
  if "data: ".data.isPrefixOf line then
    let data := jsTrim (line.drop 6)
    if data = "[DONE]".data then .done
    else
      match jsonParse data with
      | some j => .yield j
      | none => .skip
  else .skip

/-- Processing of a list of complete lines in order, with the early
return of the generator on the [DONE] sentinel.  The flag records
whether the sentinel was reached. -/
def procLines : List (List Char) → List Json × Bool
  | [] => ([], false)
  | l :: ls =>
    match lineResult l with
    | .done => ([], true)
    | .skip => procLines ls
    | .yield j => (j :: (procLines ls).1, (procLines ls).2)

/-- The read loop of streamUnified over a list of text chunks: each chunk
is appended to the buffer, the buffer is split on newlines keeping the
last piece, and the complete lines are processed; the loop stops early
when a line is the [DONE] sentinel, and stops discarding the buffer when
the chunks are exhausted. -/
def streamLoop (buf : List Char) : List (List Char) → List Json × Bool
  | [] => ([], false)
  | c :: cs =>
    let p := splitLines (buf ++ c)
    let r := procLines p.1
    if r.2 then (r.1, true)
    else (r.1 ++ (streamLoop p.2 cs).1, (streamLoop p.2 cs).2)

/-- The whole decode of streamUnified on a finite chunked byte source:
the buffer starts empty; the result is the yielded frames in order and
whether the stream terminated via the [DONE] sentinel. -/
def decodeChunks (chunks : List (List Char)) : List Json × Bool :=
  streamLoop [] chunks

/-- Boolean test for a complete line that is the [DONE] sentinel frame. -/
def isDoneLine (line : List Char) : Bool :=
  "data: ".data.isPrefixOf line && jsTrim (line.drop 6) = "[DONE]".data

/-- The frame a single complete line contributes, if any. -/
def lineFrame (line : List Char) : Option Json :=
  match lineResult line with
  | .yield j => some j
  | _ => none

/-- The exact byte sequence of the stream round-trip property: two data
frames followed by the [DONE] sentinel, each line terminated by a
newline and followed by a blank line. -/
def sseSample : List Char :=
  "data: \x7b\"a\":1\x7d\n\ndata: \x7b\"a\":2\x7d\n\ndata: [DONE]\n\n".data

/-! ## The error classifier (KushRouterSDK.makeRequest, src/index.ts:358-398)

On a non-ok response the source parses the body as JSON, substituting an
empty object on parse failure, and switches on the HTTP status, throwing
AuthenticationError for 401, InsufficientCreditsError for 402,
RateLimitError for 429 and a plain KushRouterError otherwise.  The error
classes (src/index.ts:257-288) fix the message defaults, the status and
the code of each class.  The parsed error body is modelled by the three
fields the source reads from it: the nested message, type and details
(absent fields are none; JavaScript default parameters fire only on
undefined, and the default-branch message uses the falsy-sensitive
or-operator, so an empty-string message falls back to the HTTP status
text there). -/

structure ErrBody where
  message : Option String
  etype : Option String
  details : Option String
deriving DecidableEq

inductive ErrKind where
  | authentication
  | insufficientCredits
  | rateLimit
  | generic
deriving DecidableEq

/-- A thrown KushRouterError (or subclass), with the class recorded as
its kind. -/
structure KushError where
  kind : ErrKind
  message : String
  status : Option Nat
  code : Option String
  details : Option String
deriving DecidableEq

/-- The status switch of makeRequest together with the error-class
constructors: maps a non-2xx HTTP status and the parsed error body to
the error that is thrown (retry policy aside). -/
def classify (status : Nat) (body : ErrBody) : KushError :=
  if status = 401 then
    { kind := .authentication, message := body.message.getD "Invalid API key",
      status := some 401, code := some "authentication_error", details := none }
  else if status = 402 then
    { kind := .insufficientCredits, message := body.message.getD "Insufficient credits",
      status := some 402, code := some "insufficient_credits", details := body.details }
  else if status = 429 then
    { kind := .rateLimit, message := body.message.getD "Rate limit exceeded",
      status := some 429, code := some "rate_limit_exceeded", details := none }
  else
    { kind := .generic,
      message := if body.message.getD "" = "" then "HTTP " ++ toString status
                 else body.message.getD "",
      status := some status, code := body.etype, details := none }

/-! ## The retry loop (KushRouterSDK.makeRequest, src/index.ts:339-398)

The loop runs attempt = 1 .. retries.  Each attempt performs one fetch;
its result is modelled by an Outcome: an ok response, a non-2xx response
with its status and parsed error body, or a transport-level failure (the
fetch itself rejecting, e.g. abort on timeout or a network error).  A
429 response with attempts remaining sleeps 2 ^ attempt * 1000 ms inside
the try block and continues without touching lastError; every other
error path throws, landing in the catch block, which rethrows
Authentication and InsufficientCredits errors immediately, rethrows the
last error when the attempt counter has reached the retry bound, and
otherwise sleeps 1000 * attempt ms and retries.  The loop is embedded
with the remaining iteration count as fuel (the loop guard
attempt <= retries makes fuel = retries - attempt + 1); the run records
the trace of attempts and sleeps together with the final result.  The
code after the loop (throwing lastError) is reachable only when
retries < 1, where the source would throw undefined; that is modelled by
a marker error. -/

inductive Outcome where
  | ok (rid : Nat)
  | httpErr (status : Nat) (body : ErrBody)
  | netErr (msg : String)
deriving DecidableEq

/-- A thrown JavaScript error: either a KushRouterError (subclasses
included) or a non-SDK error such as an abort or network failure. -/
inductive JsError where
  | kush (e : KushError)
  | other (msg : String)
deriving DecidableEq

/-- Observable events of one makeRequest run: an attempt being issued,
or a sleep of the given number of milliseconds. -/
inductive Ev where
  | attempt (n : Nat)
  | slept (ms : Nat)
deriving DecidableEq

/-- The retry loop of makeRequest, instrumented with its event trace.
fuel is the number of loop iterations still allowed by the guard
attempt <= retries. -/
def runLoop (retries : Nat) (out : Nat → Outcome) :
    Nat → Nat → Option JsError → List Ev × Except JsError Nat
  | 0, _, lastErr => ([], .error (lastErr.getD (.other "undefined lastError")))
  | fuel + 1, attempt, lastErr =>
    match out attempt with
    | .ok r => ([.attempt attempt], .ok r)
    | .httpErr status body =>
      if status = 429 ∧ attempt < retries then
        let rest := runLoop retries out fuel (attempt + 1) lastErr
        (.attempt attempt :: .slept (2 ^ attempt * 1000) :: rest.1, rest.2)
      else
        let e := classify status body
        if e.kind = .authentication ∨ e.kind = .insufficientCredits then
          ([.attempt attempt], .error (.kush e))
        else if attempt = retries then
          ([.attempt attempt], .error (.kush e))
        else
          let rest := runLoop retries out fuel (attempt + 1) (some (.kush e))
          (.attempt attempt :: .slept (1000 * attempt) :: rest.1, rest.2)
    | .netErr m =>
      let e : JsError := .other m
      if attempt = retries then
        ([.attempt attempt], .error e)
      else
        let rest := runLoop retries out fuel (attempt + 1) (some e)
        (.attempt attempt :: .slept (1000 * attempt) :: rest.1, rest.2)

/-- One full makeRequest call with the given retry bound, where out n is
what the n-th fetch attempt produces. -/
def makeRequestRun (retries : Nat) (out : Nat → Outcome) :
    List Ev × Except JsError Nat :=
  runLoop retries out retries 1 none

/-- Outcomes the catch block treats as retryable with linear backoff:
any non-2xx status outside 401, 402 and 429, or a transport-level
failure.  A successful response is not a failure at all. -/
def genericOutcome : Outcome → Bool
  | .httpErr s _ => !(s = 401 || s = 402 || s = 429)
  | .netErr _ => true
  | .ok _ => false

/-- The error the source throws for a failing attempt outcome (the ok
case is a filler, never reachable where this is used). -/
def raisedError : Outcome → JsError
  | .httpErr s b => .kush (classify s b)
  | .netErr m => .other m
  | .ok _ => .other ""

/-! ## Header construction (makeRequest, src/index.ts:329-337, and
files.upload, src/index.ts:653-674)

makeRequest builds its header object by spreading, in order, a literal
Content-Type: application/json entry, the authentication header (bearer
token or x-api-key), and then options.headers.  JavaScript object spread
replaces an existing key in place and appends a new one, modelled by
setHeader.  files.upload passes Content-Type: application/json for a
string upload and an empty header object for a FormData upload (the
source comment says the Content-Type must be left unset for FormData so
the boundary can be generated). -/

/-- JavaScript object-literal update: replace the value of an existing
key in place, or append the key at the end. -/
def setHeader : List (String × String) → String → String → List (String × String)
  | [], k, v => [(k, v)]
  | (k0, v0) :: hs, k, v =>
    if k0 = k then (k, v) :: hs else (k0, v0) :: setHeader hs k v

/-- Spread of one header object onto another, later keys winning. -/
def mergeHeaders (base extra : List (String × String)) : List (String × String) :=
  extra.foldl (fun acc kv => setHeader acc kv.1 kv.2) base

/-- The header object makeRequest sends, given the authentication mode,
the API key and the per-call extra headers. -/
def makeRequestHeaders (useBearer : Bool) (apiKey : String)
    (optHeaders : List (String × String)) : List (String × String) :=
  mergeHeaders
    ([("Content-Type", "application/json")] ++
      [if useBearer then ("Authorization", "Bearer " ++ apiKey) else ("x-api-key", apiKey)])
    optHeaders

/-- The two body shapes files.upload accepts. -/
inductive UploadContent where
  | text (content : String)
  | formData
deriving DecidableEq

/-- The headers files.upload itself sets before calling makeRequest. -/
def uploadHeaders : UploadContent → List (String × String)
  | .text _ => [("Content-Type", "application/json")]
  | .formData => []

/-- The headers of the request files.upload actually sends: its own
header object passed through makeRequest (which never uses the bearer
mode for this endpoint). -/
def uploadRequestHeaders (apiKey : String) (c : UploadContent) : List (String × String) :=
  makeRequestHeaders false apiKey (uploadHeaders c)

/-- The headers of a JSON-body operation that passes no extra headers,
such as chatUnified. -/
def jsonOpHeaders (useBearer : Bool) (apiKey : String) : List (String × String) :=
  makeRequestHeaders useBearer apiKey []

/-- First-match header lookup. -/
def lookupHeader (hs : List (String × String)) (k : String) : Option String :=
  (hs.find? (fun p => p.1 == k)).map (fun p => p.2)

/-! ## Request field normalization (normalizeUnifiedRequest,
src/index.ts:402-430, and normalizeOpenAIRequest, src/index.ts:433-461)

Each normalized field is handled by the same block: if the camelCase
(alternate-form) key is defined, the snake_case (wire-form) key is set
to the wire value if that is defined and to the alternate value
otherwise, and the camelCase key is deleted; when the camelCase key is
absent nothing changes.  Field values follow the declared TypeScript
interface types (UnifiedRequest, OpenAIRequest), which exclude null, so
an absent key is none and the nullish-coalescing choice is the usual
option choice.  normStep maps the pair (alternate value, wire value) to
the pair after the block; the six blocks of each normalizer touch
disjoint keys, so the normalizer is their simultaneous application. -/

/-- One normalization block of the source: (alt, wire) before the block
to (alt, wire) after it. -/
def normStep {V : Type} (alt wire : Option V) : Option V × Option V :=
  if alt.isSome then (none, wire <|> alt) else (alt, wire)

/-- The normalized fields of a unified request, both spellings each.
Other fields of the request object pass through untouched and are not
modelled. -/
structure UnifiedReqFields (V : Type) where
  maxTokens : Option V
  max_tokens : Option V
  toolChoice : Option V
  tool_choice : Option V
  timeoutMs : Option V
  timeout_ms : Option V
  promptCache : Option V
  prompt_cache : Option V
  reasoningEffort : Option V
  reasoning_effort : Option V
  mcpServers : Option V
  mcp_servers : Option V

/-- normalizeUnifiedRequest: each of its six field blocks applied to the
corresponding pair of keys. -/
def normalizeUnifiedRequest {V : Type} (r : UnifiedReqFields V) : UnifiedReqFields V :=
  { r with
    maxTokens := (normStep r.maxTokens r.max_tokens).1
    max_tokens := (normStep r.maxTokens r.max_tokens).2
    toolChoice := (normStep r.toolChoice r.tool_choice).1
    tool_choice := (normStep r.toolChoice r.tool_choice).2
    timeoutMs := (normStep r.timeoutMs r.timeout_ms).1
    timeout_ms := (normStep r.timeoutMs r.timeout_ms).2
    promptCache := (normStep r.promptCache r.prompt_cache).1
    prompt_cache := (normStep r.promptCache r.prompt_cache).2
    reasoningEffort := (normStep r.reasoningEffort r.reasoning_effort).1
    reasoning_effort := (normStep r.reasoningEffort r.reasoning_effort).2
    mcpServers := (normStep r.mcpServers r.mcp_servers).1
    mcp_servers := (normStep r.mcpServers r.mcp_servers).2 }

/-- The normalized fields of an OpenAI-compatible request, both
spellings each. -/
structure OpenAIReqFields (V : Type) where
  maxTokens : Option V
  max_tokens : Option V
  toolChoice : Option V
  tool_choice : Option V
  reasoningEffort : Option V
  reasoning_effort : Option V
  responseFormat : Option V
  response_format : Option V
  timeoutMs : Option V
  timeout_ms : Option V
  mcpServers : Option V
  mcp_servers : Option V

/-- normalizeOpenAIRequest: each of its six field blocks applied to the
corresponding pair of keys. -/
def normalizeOpenAIRequest {V : Type} (r : OpenAIReqFields V) : OpenAIReqFields V :=
  { r with
    maxTokens := (normStep r.maxTokens r.max_tokens).1
    max_tokens := (normStep r.maxTokens r.max_tokens).2
    toolChoice := (normStep r.toolChoice r.tool_choice).1
    tool_choice := (normStep r.toolChoice r.tool_choice).2
    reasoningEffort := (normStep r.reasoningEffort r.reasoning_effort).1
    reasoning_effort := (normStep r.reasoningEffort r.reasoning_effort).2
    responseFormat := (normStep r.responseFormat r.response_format).1
    response_format := (normStep r.responseFormat r.response_format).2
    timeoutMs := (normStep r.timeoutMs r.timeout_ms).1
    timeout_ms := (normStep r.timeoutMs r.timeout_ms).2
    mcpServers := (normStep r.mcpServers r.mcp_servers).1
    mcp_servers := (normStep r.mcpServers r.mcp_servers).2 }

/-! ## Sanity checks of the embedding on concrete inputs -/

example : jsonParse "\x7b\"a\":1\x7d".data = some (Json.obj [("a".data, Json.num "1".data)]) := by rfl
example : jsonParse "not-json".data = none := by rfl
example : jsonParse "[1,2]".data = some (Json.arr [Json.num "1".data, Json.num "2".data]) := by rfl
example : jsonParse "".data = none := by rfl
example : jsonParse " \x7b \"k\" : [true, null, \"x\"] \x7d ".data
    = some (Json.obj [("k".data, Json.arr [Json.bool true, Json.null, Json.str "x".data])]) := by rfl
example : jsonParse "\x7b\"a\":1".data = none := by rfl
example : jsonParse "1 2".data = none := by rfl
example : jsonParse "-12.5e+3".data = some (Json.num "-12.5e+3".data) := by rfl

example : splitLines "a\nbc\nd".data = (["a".data, "bc".data], "d".data) := by rfl
example : splitLines "a\n".data = (["a".data], []) := by rfl
example : splitLines "".data = ([], []) := by rfl
example : splitLines "\n\n".data = ([[], []], []) := by rfl

example :
    decodeChunks [sseSample]
      = ([Json.obj [("a".data, Json.num "1".data)], Json.obj [("a".data, Json.num "2".data)]], true) := by
  rfl

example :
    decodeChunks ["data: not-json\n\ndata: \x7b\"a\":2\x7d\n".data]
      = ([Json.obj [("a".data, Json.num "2".data)]], false) := by
  rfl

example : decodeChunks ["data: \x7b\"a\":1\x7d".data] = ([], false) := by rfl

example :
    makeRequestRun 3 (fun _ => .httpErr 429 { message := none, etype := none, details := none })
      = ([.attempt 1, .slept 2000, .attempt 2, .slept 4000, .attempt 3],
         .error (.kush (classify 429 { message := none, etype := none, details := none }))) := by
  rfl

example :
    makeRequestRun 3 (fun _ => .httpErr 500 { message := none, etype := none, details := none })
      = ([.attempt 1, .slept 1000, .attempt 2, .slept 2000, .attempt 3],
         .error (.kush (classify 500 { message := none, etype := none, details := none }))) := by
  rfl

example :
    makeRequestRun 3 (fun _ => .httpErr 401 { message := none, etype := none, details := none })
      = ([.attempt 1],
         .error (.kush (classify 401 { message := none, etype := none, details := none }))) := by
  rfl

/-! ## Chunk-boundary independence of the decoder -/

theorem splitLines_fst_nil {s : List Char} (h : (splitLines s).1 = []) :
    (splitLines s).2 = s := by
  induction s with
  | nil => rfl
  | cons c cs ih =>
    by_cases hc : c = '\n'
    · simp [splitLines, hc] at h
    · simp only [splitLines, if_neg hc] at h ⊢
      cases hp : (splitLines cs).1 with
      | nil => simp [hp, ih hp]
      | cons l ls => simp [hp] at h

theorem splitLines_of_no_nl {s : List Char} (h : '\n' ∉ s) :
    splitLines s = ([], s) := by
  induction s with
  | nil => rfl
  | cons c cs ih =>
    have hc : c ≠ '\n' := fun hx => h (hx ▸ List.mem_cons_self c cs)
    have hcs : '\n' ∉ cs := fun hx => h (List.mem_cons_of_mem c hx)
    simp [splitLines, hc, ih hcs]

theorem no_nl_splitLines_snd (s : List Char) : '\n' ∉ (splitLines s).2 := by
  induction s with
  | nil => simp [splitLines]
  | cons c cs ih =>
    by_cases hc : c = '\n'
    · simpa [splitLines, hc] using ih
    · simp only [splitLines, if_neg hc]
      cases hp : (splitLines cs).1 with
      | nil =>
        simp only [hp]
        intro hmem
        rcases List.mem_cons.mp hmem with h1 | h2
        · exact hc h1.symm
        · exact ih h2
      | cons l ls => simpa [hp] using ih

theorem splitLines_append (a b : List Char) :
    splitLines (a ++ b)
      = ((splitLines a).1 ++ (splitLines ((splitLines a).2 ++ b)).1,
         (splitLines ((splitLines a).2 ++ b)).2) := by
  induction a with
  | nil => simp [splitLines]
  | cons c cs ih =>
    by_cases hc : c = '\n'
    · simp only [List.cons_append, splitLines, if_pos hc, List.append_eq, ih]
    · simp only [List.cons_append, splitLines, if_neg hc, List.append_eq, ih]
      cases hp : (splitLines cs).1 with
      | nil =>
        have h2 : (splitLines cs).2 = cs := splitLines_fst_nil hp
        simp only [hp, List.nil_append, h2, List.cons_append]
        simp [splitLines, if_neg hc]
      | cons l ls =>
        simp [hp]

theorem procLines_append (xs ys : List (List Char)) :
    procLines (xs ++ ys)
      = if (procLines xs).2 then procLines xs
        else ((procLines xs).1 ++ (procLines ys).1, (procLines ys).2) := by
  induction xs with
  | nil => simp [procLines]
  | cons l ls ih =>
    cases hl : lineResult l with
    | done => simp [procLines, hl]
    | skip => simpa [procLines, hl] using ih
    | yield j =>
      simp only [List.cons_append, procLines, hl, ih]
      by_cases hb : (procLines ls).2 <;> simp [hb, ih]

theorem streamLoop_join (cs : List (List Char)) :
    ∀ buf : List Char, '\n' ∉ buf →
      streamLoop buf cs = procLines (splitLines (buf ++ cs.flatten)).1 := by
  induction cs with
  | nil =>
    intro buf hb
    simp [streamLoop, splitLines_of_no_nl hb, procLines]
  | cons c cs ih =>
    intro buf hb
    have hsnd := no_nl_splitLines_snd (buf ++ c)
    have happ := splitLines_append (buf ++ c) cs.flatten
    simp only [streamLoop, List.flatten_cons, ← List.append_assoc, happ, procLines_append]
    rcases hq : procLines (splitLines (buf ++ c)).1 with ⟨fs, flag⟩
    cases flag
    · simp [hq, ih (splitLines (buf ++ c)).2 hsnd]
    · simp [hq]

/-- The decode result of the stream decoder depends only on the
concatenation of the chunks: it equals the processing, in order, of the
complete lines of the whole byte sequence, the final buffer residue
being discarded. -/
theorem decodeChunks_join (chunks : List (List Char)) :
    decodeChunks chunks = procLines (splitLines chunks.flatten).1 := by
  simpa [decodeChunks] using streamLoop_join chunks [] (by simp)

theorem isDoneLine_of_lineResult_done {l : List Char} (h : lineResult l = .done) :
    isDoneLine l = true := by
  unfold lineResult at h
  by_cases h1 : "data: ".data.isPrefixOf l
  · simp only [h1, if_true] at h
    by_cases h2 : jsTrim (l.drop 6) = "[DONE]".data
    · simp [isDoneLine, h1, h2]
    · rw [if_neg h2] at h
      rcases hp : jsonParse (jsTrim (l.drop 6)) with _ | j <;> rw [hp] at h <;> cases h
  · simp only [h1, Bool.false_eq_true, if_false] at h
    cases h

/-- When no complete line is the [DONE] sentinel, processing never stops
early: every parsed data line is yielded, in order, and the flag is
false (clean end of input). -/
theorem procLines_no_done {ls : List (List Char)}
    (h : ∀ l ∈ ls, isDoneLine l = false) :
    procLines ls = (ls.filterMap lineFrame, false) := by
  induction ls with
  | nil => simp [procLines]
  | cons l ls ih =>
    have hl : isDoneLine l = false := h l (List.mem_cons_self l ls)
    have hls : ∀ x ∈ ls, isDoneLine x = false := fun x hx => h x (List.mem_cons_of_mem l hx)
    cases hres : lineResult l with
    | done => rw [isDoneLine_of_lineResult_done hres] at hl; cases hl
    | skip => simp [procLines, hres, lineFrame, ih hls]
    | yield j => simp [procLines, hres, lineFrame, ih hls]

/-! ## Steps of the retry loop on generically-classified failures -/

theorem runLoop_generic_mid (retries fuel fuel2 attempt : Nat) (out : Nat → Outcome)
    (lastErr : Option JsError) (hfuel : fuel = fuel2 + 1)
    (hg : genericOutcome (out attempt) = true) (hne : attempt ≠ retries) :
    runLoop retries out fuel attempt lastErr
      = (.attempt attempt :: .slept (1000 * attempt) ::
          (runLoop retries out fuel2 (attempt + 1) (some (raisedError (out attempt)))).1,
         (runLoop retries out fuel2 (attempt + 1) (some (raisedError (out attempt)))).2) := by
  subst hfuel
  cases ho : out attempt with
  | ok r => rw [ho] at hg; simp [genericOutcome] at hg
  | httpErr s b =>
    rw [ho] at hg
    simp only [genericOutcome, Bool.not_eq_eq_eq_not, Bool.not_true, Bool.or_eq_false_iff,
      decide_eq_false_iff_not] at hg
    obtain ⟨⟨hs1, hs2⟩, hs3⟩ := hg
    simp [runLoop, ho, classify, raisedError, hs1, hs2, hs3, hne]
  | netErr m => simp [runLoop, ho, raisedError, hne]

theorem runLoop_generic_last (retries fuel fuel2 : Nat) (out : Nat → Outcome)
    (lastErr : Option JsError) (hfuel : fuel = fuel2 + 1)
    (hg : genericOutcome (out retries) = true) :
    runLoop retries out fuel retries lastErr
      = ([.attempt retries], .error (raisedError (out retries))) := by
  subst hfuel
  cases ho : out retries with
  | ok r => rw [ho] at hg; simp [genericOutcome] at hg
  | httpErr s b =>
    rw [ho] at hg
    simp only [genericOutcome, Bool.not_eq_eq_eq_not, Bool.not_true, Bool.or_eq_false_iff,
      decide_eq_false_iff_not] at hg
    obtain ⟨⟨hs1, hs2⟩, hs3⟩ := hg
    simp [runLoop, ho, classify, raisedError, hs1, hs2, hs3]
  | netErr m => simp [runLoop, ho, raisedError]

/-- Each normalization block deletes the alternate key and keeps the
wire value, falling back to the alternate value only when the wire key
is absent. -/
theorem normStep_spec {V : Type} (alt wire : Option V) :
    normStep alt wire = (none, wire <|> alt) := by
  cases alt with
  | none => cases wire <;> rfl
  | some v => rfl

/-! ## The claims -/

/-- C1: when every attempt fails with an HTTP 429 (RateLimit-classified)
error and the retry bound is 3, the loop makes exactly three attempts,
sleeps exactly twice between them, 2 ^ 1 * 1000 = 2000 ms then
2 ^ 2 * 1000 = 4000 ms (attempt-indexed exponential, no cap, no jitter,
and no additional linear-backoff sleep appears in the trace), and after
the third failed attempt raises the classified error of the third
attempt, whose kind is RateLimit. -/
theorem c1_rate_limit_three_attempts_exponential_sleeps (bodies : Nat → ErrBody) :
    makeRequestRun 3 (fun n => .httpErr 429 (bodies n))
        = ([.attempt 1, .slept 2000, .attempt 2, .slept 4000, .attempt 3],
           .error (.kush (classify 429 (bodies 3))))
      ∧ (classify 429 (bodies 3)).kind = .rateLimit :=
  ⟨rfl, rfl⟩

/-- C2: when the first attempt fails with an HTTP 401
(Authentication-classified) or HTTP 402 (InsufficientCredits-classified)
error, the retry controller makes exactly one attempt and raises that
classified error immediately: the trace holds a single attempt event and
no sleep, whatever the retry bound (at least 1) and whatever the later
attempts would produce. -/
theorem c2_auth_or_credits_single_attempt_no_sleep
    (retries : Nat) (out : Nat → Outcome) (status : Nat) (body : ErrBody)
    (hret : 1 ≤ retries)
    (hst : status = 401 ∨ status = 402)
    (hout : out 1 = .httpErr status body) :
    makeRequestRun retries out = ([.attempt 1], .error (.kush (classify status body))) := by
  obtain ⟨r, rfl⟩ : ∃ r, retries = r + 1 := ⟨retries - 1, by omega⟩
  rcases hst with rfl | rfl <;> simp [makeRequestRun, runLoop, hout, classify]

theorem c2_witness :
    makeRequestRun 5 (fun _ => .httpErr 402 { message := none, etype := none, details := none })
      = ([.attempt 1],
         .error (.kush (classify 402 { message := none, etype := none, details := none }))) :=
  c2_auth_or_credits_single_attempt_no_sleep 5 _ 402
    { message := none, etype := none, details := none }
    (by decide) (Or.inr rfl) rfl

/-- C3: when every attempt fails with a Generic-classified error (a
non-2xx status outside 401, 402 and 429, or a transport-level failure
such as a timeout) and the retry bound is 3, the loop makes exactly
three attempts, sleeps 1000 * 1 = 1000 ms then 1000 * 2 = 2000 ms
between them (linear backoff), and after the third attempt raises
exactly the error thrown by the third attempt, with no wrapper error. -/
theorem c3_generic_linear_backoff_raises_last_error (out : Nat → Outcome)
    (h1 : genericOutcome (out 1) = true)
    (h2 : genericOutcome (out 2) = true)
    (h3 : genericOutcome (out 3) = true) :
    makeRequestRun 3 out
      = ([.attempt 1, .slept 1000, .attempt 2, .slept 2000, .attempt 3],
         .error (raisedError (out 3))) := by
  unfold makeRequestRun
  rw [runLoop_generic_mid 3 3 2 1 out none rfl h1 (by omega)]
  rw [runLoop_generic_mid 3 2 1 2 out _ rfl h2 (by omega)]
  rw [runLoop_generic_last 3 1 0 out _ rfl h3]

theorem c3_witness :
    makeRequestRun 3
        (fun n => if n = 1
          then .httpErr 500 { message := none, etype := none, details := none }
          else .netErr "network timeout")
      = ([.attempt 1, .slept 1000, .attempt 2, .slept 2000, .attempt 3],
         .error (.other "network timeout")) := by
  have h := c3_generic_linear_backoff_raises_last_error
    (fun n => if n = 1
      then .httpErr 500 { message := none, etype := none, details := none }
      else .netErr "network timeout") rfl rfl rfl
  exact h

/-- C4: feeding the decoder the exact byte sequence of two data frames
followed by the [DONE] sentinel, split into two chunks at an arbitrary
offset (including mid-line), yields exactly the frames with a equal to 1
and a equal to 2, in that order, and then terminates via the sentinel;
the sentinel is never yielded as data and the result does not depend on
the split point. -/
theorem c4_sse_split_point_invariance (i : Nat) :
    decodeChunks [sseSample.take i, sseSample.drop i]
      = ([Json.obj [("a".data, Json.num "1".data)],
          Json.obj [("a".data, Json.num "2".data)]], true) := by
  rw [decodeChunks_join]
  simp only [List.flatten_cons, List.flatten_nil, List.append_nil, List.take_append_drop]
  rfl

/-- C5 counterexample: the claim says every kind carries the error-type
string of the body when present, but for status 401 (and likewise 402
and 429) the source installs the fixed class code and discards the
error-type supplied by the body; and for a Generic status with a
present-but-empty nested message, the claim would give the empty
message while the source falls back to the HTTP status text. -/
theorem c5_counterexample :
    (classify 401 { message := none, etype := some "provider_overload", details := none }).code
        = some "authentication_error"
      ∧ (classify 401 { message := none, etype := some "provider_overload", details := none }).code
        ≠ some "provider_overload"
      ∧ (classify 500 { message := some "", etype := none, details := none }).message
        = "HTTP 500" := by
  refine ⟨rfl, ?_, rfl⟩
  decide

/-- C5 (amended): statuses 401, 402 and 429 are classified
Authentication, InsufficientCredits and RateLimit regardless of the body,
with default messages used when the body has no nested message, 402
carrying the details of the body; any other status is classified Generic
with the nested message of the body when present and non-empty, else the
HTTP status text.  Only the Generic kind carries the error-type string
of the body as its code (omitted when absent); the three special kinds
carry fixed SDK codes and ignore the error-type of the body. -/
theorem c5_amended_classify_table (status : Nat) (body : ErrBody) :
    ((classify 401 body).kind = .authentication
      ∧ (classify 401 body).code = some "authentication_error"
      ∧ (body.message = none → (classify 401 body).message = "Invalid API key"))
    ∧ ((classify 402 body).kind = .insufficientCredits
      ∧ (classify 402 body).code = some "insufficient_credits"
      ∧ (classify 402 body).details = body.details
      ∧ (body.message = none → (classify 402 body).message = "Insufficient credits"))
    ∧ ((classify 429 body).kind = .rateLimit
      ∧ (classify 429 body).code = some "rate_limit_exceeded"
      ∧ (body.message = none → (classify 429 body).message = "Rate limit exceeded"))
    ∧ (status ≠ 401 → status ≠ 402 → status ≠ 429 →
        (classify status body).kind = .generic
        ∧ (classify status body).code = body.etype
        ∧ (∀ m, body.message = some m → m ≠ "" →
            (classify status body).message = m)
        ∧ (body.message = none →
            (classify status body).message = "HTTP " ++ toString status)) := by
  refine ⟨⟨rfl, rfl, fun hm => ?_⟩, ⟨rfl, rfl, rfl, fun hm => ?_⟩,
    ⟨rfl, rfl, fun hm => ?_⟩, fun hs1 hs2 hs3 => ?_⟩
  · simp [classify, hm]
  · simp [classify, hm]
  · simp [classify, hm]
  · refine ⟨by simp [classify, hs1, hs2, hs3], by simp [classify, hs1, hs2, hs3],
      fun m hm hme => ?_, fun hm => ?_⟩
    · simp [classify, hs1, hs2, hs3, hm, hme]
    · simp [classify, hs1, hs2, hs3, hm]

theorem c5_amended_witness :
    (classify 500 { message := some "", etype := some "upstream_error", details := none }).kind
        = .generic
      ∧ (classify 500 { message := some "", etype := some "upstream_error", details := none }).code
        = some "upstream_error" := by
  have h := (c5_amended_classify_table 500
    { message := some "", etype := some "upstream_error", details := none }).2.2.2
    (by decide) (by decide) (by decide)
  exact ⟨h.1, h.2.1⟩

/-- C6: the claim says a FormData upload carries no manually-set
Content-Type header.  The code contradicts its own comment: makeRequest
always seeds Content-Type: application/json into the header object, and
the empty header object files.upload passes for FormData cannot remove
it, so the FormData request carries Content-Type: application/json (the
multipart boundary can therefore not be set by the HTTP client).  The
JSON-body conjuncts of the claim do hold: every JSON operation and the
string-content upload carry Content-Type: application/json. -/
theorem c6_formdata_upload_sends_json_content_type (apiKey : String) :
    lookupHeader (uploadRequestHeaders apiKey .formData) "Content-Type"
        = some "application/json"
      ∧ lookupHeader (jsonOpHeaders false apiKey) "Content-Type" = some "application/json"
      ∧ lookupHeader (jsonOpHeaders true apiKey) "Content-Type" = some "application/json"
      ∧ lookupHeader (uploadRequestHeaders apiKey (.text "hello")) "Content-Type"
        = some "application/json" :=
  ⟨rfl, rfl, rfl, rfl⟩

/-- C7: for every request object and every normalized field, the
normalized wire-form value is the wire-form value of the input whenever
that key is present and the alternate-form value only otherwise, and the
alternate-form key is always removed; in particular a request holding
both spellings with different values keeps the wire-form value
unchanged. -/
theorem c7_wire_form_wins_normalization {V : Type}
    (r : UnifiedReqFields V) (s : OpenAIReqFields V) :
    ((normalizeUnifiedRequest r).max_tokens = (r.max_tokens <|> r.maxTokens)
      ∧ (normalizeUnifiedRequest r).maxTokens = none
      ∧ (normalizeUnifiedRequest r).tool_choice = (r.tool_choice <|> r.toolChoice)
      ∧ (normalizeUnifiedRequest r).toolChoice = none
      ∧ (normalizeUnifiedRequest r).timeout_ms = (r.timeout_ms <|> r.timeoutMs)
      ∧ (normalizeUnifiedRequest r).timeoutMs = none
      ∧ (normalizeUnifiedRequest r).prompt_cache = (r.prompt_cache <|> r.promptCache)
      ∧ (normalizeUnifiedRequest r).promptCache = none
      ∧ (normalizeUnifiedRequest r).reasoning_effort = (r.reasoning_effort <|> r.reasoningEffort)
      ∧ (normalizeUnifiedRequest r).reasoningEffort = none
      ∧ (normalizeUnifiedRequest r).mcp_servers = (r.mcp_servers <|> r.mcpServers)
      ∧ (normalizeUnifiedRequest r).mcpServers = none)
    ∧ ((normalizeOpenAIRequest s).max_tokens = (s.max_tokens <|> s.maxTokens)
      ∧ (normalizeOpenAIRequest s).maxTokens = none
      ∧ (normalizeOpenAIRequest s).tool_choice = (s.tool_choice <|> s.toolChoice)
      ∧ (normalizeOpenAIRequest s).toolChoice = none
      ∧ (normalizeOpenAIRequest s).reasoning_effort = (s.reasoning_effort <|> s.reasoningEffort)
      ∧ (normalizeOpenAIRequest s).reasoningEffort = none
      ∧ (normalizeOpenAIRequest s).response_format = (s.response_format <|> s.responseFormat)
      ∧ (normalizeOpenAIRequest s).responseFormat = none
      ∧ (normalizeOpenAIRequest s).timeout_ms = (s.timeout_ms <|> s.timeoutMs)
      ∧ (normalizeOpenAIRequest s).timeoutMs = none
      ∧ (normalizeOpenAIRequest s).mcp_servers = (s.mcp_servers <|> s.mcpServers)
      ∧ (normalizeOpenAIRequest s).mcpServers = none) := by
  simp [normalizeUnifiedRequest, normalizeOpenAIRequest, normStep_spec]

/-- C8: a complete line whose payload after the data prefix is neither
the [DONE] sentinel nor valid JSON is silently discarded: the decoded
line sequence is exactly what it would be with that line absent, with no
frame yielded for it and no error raised. -/
theorem c8_malformed_data_line_skipped (pre post : List (List Char)) (line : List Char)
    (hpre : "data: ".data.isPrefixOf line = true)
    (hdone : jsTrim (line.drop 6) ≠ "[DONE]".data)
    (hparse : jsonParse (jsTrim (line.drop 6)) = none) :
    procLines (pre ++ line :: post) = procLines (pre ++ post) := by
  have hskip : lineResult line = .skip := by
    unfold lineResult
    simp [hpre, hdone, hparse]
  rw [procLines_append, procLines_append]
  simp [procLines, hskip]

theorem c8_witness :
    procLines ["data: not-json".data, "data: \x7b\"a\":2\x7d".data]
      = procLines ["data: \x7b\"a\":2\x7d".data] :=
  c8_malformed_data_line_skipped [] ["data: \x7b\"a\":2\x7d".data] "data: not-json".data
    rfl (by decide) rfl

/-- C9: a finite byte source that ends without ever containing a [DONE]
line decodes to a finite sequence ending cleanly at source exhaustion
(the termination flag is false and the decoder has no error outcome),
and every frame of a complete data line seen before exhaustion is
yielded, in order. -/
theorem c9_source_exhaustion_clean_end (chunks : List (List Char))
    (h : ∀ l ∈ (splitLines chunks.flatten).1, isDoneLine l = false) :
    decodeChunks chunks = ((splitLines chunks.flatten).1.filterMap lineFrame, false) := by
  rw [decodeChunks_join, procLines_no_done h]

theorem c9_witness :
    decodeChunks ["data: \x7b\"a\":1\x7d\n".data, "x\ndata: \x7b\"a\":2\x7d\n".data]
      = ([Json.obj [("a".data, Json.num "1".data)],
          Json.obj [("a".data, Json.num "2".data)]], false) := by
  rw [c9_source_exhaustion_clean_end
    ["data: \x7b\"a\":1\x7d\n".data, "x\ndata: \x7b\"a\":2\x7d\n".data] (by decide)]
  rfl

/-- C10: when the byte source ends while the accumulation buffer holds a
residual line without a trailing newline, that residual is discarded
without being parsed or yielded: appending any newline-free tail to the
source leaves the decode result unchanged (so even a complete,
well-formed data frame lacking its newline is never emitted). -/
theorem c10_residual_tail_discarded (chunks : List (List Char)) (t : List Char)
    (h : '\n' ∉ t) :
    decodeChunks (chunks ++ [t]) = decodeChunks chunks := by
  rw [decodeChunks_join, decodeChunks_join]
  have hflat : (chunks ++ [t]).flatten = chunks.flatten ++ t := by simp
  rw [hflat, splitLines_append]
  have hr := no_nl_splitLines_snd chunks.flatten
  have hnone : splitLines ((splitLines chunks.flatten).2 ++ t)
      = ([], (splitLines chunks.flatten).2 ++ t) := by
    refine splitLines_of_no_nl ?_
    intro hmem
    rcases List.mem_append.mp hmem with hm1 | hm2
    · exact hr hm1
    · exact h hm2
  rw [hnone]
  simp

theorem c10_witness :
    decodeChunks ["data: \x7b\"a\":1\x7d\n".data, "data: \x7b\"a\":2\x7d".data]
        = decodeChunks ["data: \x7b\"a\":1\x7d\n".data]
      ∧ decodeChunks ["data: \x7b\"a\":1\x7d\n".data]
        = ([Json.obj [("a".data, Json.num "1".data)]], false) :=
  ⟨c10_residual_tail_discarded ["data: \x7b\"a\":1\x7d\n".data]
    "data: \x7b\"a\":2\x7d".data (by decide), rfl⟩
